import Mathlib

/-!
Shallow embedding of the PoolPal order/payment ledger.

The definitions below are translated from the repository's source:
* `src/src/lib/user-types.ts` (payment service segment): `PaymentStatus`,
  `Payment`, `updatePaymentStatus`, `isValidStatusTransition`,
  `updateOrderPaymentStatus`, `getPaymentsByOrderId`, `getTotalRevenue`.
* `src/unnamed/part_009` (order service): `OrderStatus`, `Order`,
  `OrderItem`, `updateOrderStatus`, `isValidOrderStatusTransition`,
  `calculateOrderTotal`, `saveOrder`.
* `src/src/app/dashboard/payments/[id]/client.tsx`:
  `getValidStatusTransitions` (the payment detail UI's transition table).
* `src/src/app/dashboard/orders/new/page.tsx`: `handleSubmit`
  (order-creation path).

The Firestore document store is modelled as lists of records keyed by their
`id` field (Firestore keys are unique; theorems that need uniqueness carry a
`Nodup` hypothesis on the ids).  JavaScript `number` is modelled as `ℚ`,
timestamps as `ℕ`, and optional fields as `Option`.  A successful
`updateDoc` on a key replaces every record with that id.  Functions that
return a success flag are modelled as returning the new store paired with
a `Bool`; `updateOrderStatus`, which throws, returns `Except`.
-/

namespace PoolPal

/-- Payment status enum from `user-types.ts` (`PaymentStatus`). -/
inductive PaymentStatus where
  | pending
  | processing
  | completed
  | failed
  | refunded
  | cancelled
deriving DecidableEq, Fintype

/-- Order status enum from `part_009` (`OrderStatus`).  The source references
`OrderStatus.RETURNED` inside its transition table, but `RETURNED` is not a
member of the enum, so that entry denotes `undefined` at runtime and can
never match a requested status; the enum here has exactly the declared
members. -/
inductive OrderStatus where
  | pending
  | processing
  | completed
  | cancelled
  | refunded
  | shipped
  | delivered
deriving DecidableEq, Fintype

/-- Payment record (`interface Payment` in `user-types.ts`). -/
structure Payment where
  id : String
  orderId : String
  userId : String
  amount : ℚ
  referenceCode : String
  paymentMethod : String
  status : PaymentStatus
  createdAt : ℕ
  updatedAt : Option ℕ := none
  completedAt : Option ℕ := none
deriving DecidableEq

/-- Order line item (`interface OrderItem` in `part_009`). -/
structure OrderItem where
  id : String
  imageUrl : String
  name : String
  price : ℚ
  quantity : ℚ
deriving DecidableEq

/-- Order record (`interface Order` in `part_009`). -/
structure Order where
  id : String
  createdAt : ℕ
  items : List OrderItem
  orderNumber : String
  paymentMethod : String
  receiptNumber : String
  shippingAddress : String
  status : OrderStatus
  total : ℚ
  userId : String
  isPaid : Bool
  paymentId : Option String := none
  paymentReferenceCode : Option String := none
  updatedAt : Option ℕ := none
deriving DecidableEq

/-- The Firestore document store: the `payments` and `orders` collections. -/
structure DB where
  payments : List Payment
  orders : List Order
deriving DecidableEq

/-- Allowed payment transitions (`validTransitions` in
`isValidStatusTransition`, `user-types.ts` lines 394-416). -/
def validPaymentTransitions : PaymentStatus → List PaymentStatus
  | .pending => [.processing, .completed, .failed, .cancelled]
  | .processing => [.completed, .failed]
  | .completed => [.refunded]
  | .failed => [.pending, .cancelled]
  | .refunded => []
  | .cancelled => [.pending]

/-- Payment transition validation (`isValidStatusTransition`:
`validTransitions[currentStatus]?.includes(newStatus) || false`). -/
def isValidStatusTransition (currentStatus newStatus : PaymentStatus) : Bool :=
  (validPaymentTransitions currentStatus).contains newStatus

/-- Allowed order transitions (`validTransitions` in
`isValidOrderStatusTransition`, `part_009` lines 166-189).  The source's
`OrderStatus.RETURNED` entries in the `SHIPPED` and `DELIVERED` rows are
`undefined` (no such enum member) and can never equal a requested
`OrderStatus`, so they are omitted. -/
def validOrderTransitions : OrderStatus → List OrderStatus
  | .pending => [.processing, .cancelled]
  | .processing => [.shipped, .completed, .cancelled]
  | .shipped => [.delivered]
  | .delivered => [.completed]
  | .completed => [.refunded]
  | .cancelled => []
  | .refunded => []

/-- Order transition validation (`isValidOrderStatusTransition`). -/
def isValidOrderStatusTransition (currentStatus newStatus : OrderStatus) : Bool :=
  (validOrderTransitions currentStatus).contains newStatus

/-- Firestore `getDoc` on the `payments` collection keyed by id
(`getPaymentById`, ignoring timestamp coercions). -/
def findPayment (db : DB) (id : String) : Option Payment :=
  db.payments.find? fun p => p.id == id

/-- Firestore `getDoc` on the `orders` collection keyed by id
(`getOrderById`). -/
def findOrder (db : DB) (id : String) : Option Order :=
  db.orders.find? fun o => o.id == id

/-- Query of payments by `orderId` (`getPaymentsByOrderId`): bails out on a
falsy order id, otherwise filters the collection (the `orderBy createdAt`
sort is irrelevant to any property proved here). -/
def getPaymentsByOrderId (db : DB) (orderId : String) : List Payment :=
  if orderId == "" then []
  else db.payments.filter fun p => p.orderId == orderId

/-- The field update applied to the parent order by
`updateOrderPaymentStatus` (`user-types.ts` lines 438-442):
`{ isPaid, status: isPaid ? 'processing' : 'pending', updatedAt: now }`. -/
def applyOrderPaidUpdate (now : ℕ) (isPaid : Bool) (o : Order) : Order :=
  { o with
    isPaid := isPaid
    status := if isPaid then .processing else .pending
    updatedAt := some now }

/-- Reconciliation write on the parent order (`updateOrderPaymentStatus`,
`user-types.ts` lines 422-450): bails out returning `false` on a falsy id or
a missing order, otherwise merges the paid-flag update into the order doc. -/
def updateOrderPaymentStatus (db : DB) (now : ℕ) (orderId : String)
    (isPaid : Bool) : DB × Bool :=
  if orderId == "" then (db, false)
  else
    match findOrder db orderId with
    | none => (db, false)
    | some _ =>
      ({ db with
          orders := db.orders.map fun o =>
            if o.id == orderId then applyOrderPaidUpdate now isPaid o else o },
        true)

/-- The `updateData` merge written to the payment doc by
`updatePaymentStatus` (`user-types.ts` lines 355-365): always `status` and
`updatedAt`; `completedAt` is included exactly when the new status is
`COMPLETED`, overwriting any present value. -/
def applyPaymentStatusUpdate (now : ℕ) (status : PaymentStatus)
    (p : Payment) : Payment :=
  { p with
    status := status
    updatedAt := some now
    completedAt := if status == .completed then some now else p.completedAt }

/-- Payment status change with validation and reconciliation
(`updatePaymentStatus`, `user-types.ts` lines 333-389).  Returns the new
store and the boolean the source returns.  The reconciliation result is
awaited but discarded, exactly as in the source. -/
def updatePaymentStatus (db : DB) (now : ℕ) (id : String)
    (status : PaymentStatus) : DB × Bool :=
  if id == "" then (db, false)
  else
    match findPayment db id with
    | none => (db, false)
    | some payment =>
      if ! isValidStatusTransition payment.status status then (db, false)
      else
        let db1 : DB :=
          { db with
            payments := db.payments.map fun p =>
              if p.id == id then applyPaymentStatusUpdate now status p else p }
        if status == .completed then
          ((updateOrderPaymentStatus db1 now payment.orderId true).1, true)
        else if status == .failed || status == .cancelled then
          let orderPayments := getPaymentsByOrderId db1 payment.orderId
          let hasCompletedPayment := orderPayments.any fun p =>
            p.id != id && p.status == .completed
          if ! hasCompletedPayment then
            ((updateOrderPaymentStatus db1 now payment.orderId false).1, true)
          else (db1, true)
        else (db1, true)

/-- Error outcomes of `updateOrderStatus` (`part_009` lines 129-161), which
throws `Error` objects; the three throw sites are distinguished here by
constructor, matching the spec's `NotFoundError` / `InvalidTransitionError`
/ `PaymentRequiredError` taxonomy. -/
inductive OrderUpdateError where
  | notFound
  | invalidTransition (curr target : OrderStatus)
  | paymentRequired (target : OrderStatus)
deriving DecidableEq

/-- The payment-gated target statuses checked by `updateOrderStatus`
(`part_009` lines 143-147). -/
def paymentGated (s : OrderStatus) : Bool :=
  s == .processing || s == .shipped || s == .delivered || s == .completed

/-- Order status change with validation (`updateOrderStatus`, `part_009`
lines 129-161): not-found check, then transition validation, then the
payment gate, then the doc update. -/
def updateOrderStatus (db : DB) (now : ℕ) (id : String)
    (status : OrderStatus) : Except OrderUpdateError DB :=
  match findOrder db id with
  | none => .error .notFound
  | some order =>
    if ! isValidOrderStatusTransition order.status status then
      .error (.invalidTransition order.status status)
    else if paymentGated status && ! order.isPaid then
      .error (.paymentRequired status)
    else
      .ok { db with
        orders := db.orders.map fun o =>
          if o.id == id then { o with status := status, updatedAt := some now }
          else o }

/-- Revenue aggregation (`getTotalRevenue`, `user-types.ts` lines 516-538):
query the payments with status `COMPLETED` and reduce their amounts.  The
`payment.amount || 0` guard is the identity here since `amount` is a
required numeric field. -/
def getTotalRevenue (db : DB) : ℚ :=
  (db.payments.filter fun p => p.status == .completed).foldl
    (fun total payment => total + payment.amount) 0

/-- Order total (`calculateOrderTotal`, `part_009` lines 224-226):
`items.reduce((total, item) => total + item.price * item.quantity, 0)`. -/
def calculateOrderTotal (items : List OrderItem) : ℚ :=
  items.foldl (fun total item => total + item.price * item.quantity) 0

/-- The payment detail UI's transition table (`getValidStatusTransitions`,
`client.tsx` lines 138-155). -/
def getValidStatusTransitions : PaymentStatus → List PaymentStatus
  | .pending => [.processing, .completed, .failed, .cancelled]
  | .processing => [.completed, .failed]
  | .completed => [.refunded]
  | .failed => [.pending, .processing]
  | .cancelled => [.pending]
  | .refunded => []

/-- Firestore `setDoc` on the `orders` collection: replaces the doc with
that key, or creates it. -/
def putOrder (db : DB) (o : Order) : DB :=
  if db.orders.any (fun x => x.id == o.id) then
    { db with orders := db.orders.map fun x => if x.id == o.id then o else x }
  else { db with orders := db.orders ++ [o] }

/-- Order persistence (`saveOrder`, `part_009` lines 55-74): fills in a
generated id and `createdAt` when falsy, stamps `updatedAt`, writes the doc,
returns the id. -/
def saveOrder (db : DB) (now : ℕ) (orderData : Order) : DB × String :=
  let orderId := if orderData.id == "" then "order_" ++ toString now
    else orderData.id
  let updatedOrder :=
    { orderData with
      id := orderId
      createdAt := if orderData.createdAt == 0 then now else orderData.createdAt
      updatedAt := some now }
  (putOrder db updatedOrder, orderId)

/-- Input of the order-creation form (`page.tsx`): the chosen products and
the form fields used by `handleSubmit`. -/
structure OrderFormInput where
  selectedProducts : List OrderItem
  shippingAddress : String
  paymentMethod : String
  notes : String
deriving DecidableEq

/-- The order payload built by the order-creation path (`handleSubmit`,
`page.tsx` lines 129-171): rejects an empty product list or a blank
shipping address, otherwise builds the order with
`total = calculateOrderTotal(selectedProducts)`, status `PENDING`,
`isPaid = false`.  `rand` stands for the `Math.random()` draw used by
`generateOrderNumber`. -/
def handleSubmitOrder (now rand : ℕ) (input : OrderFormInput) : Option Order :=
  if input.selectedProducts.length == 0 then none
  else if input.shippingAddress == "" then none
  else
    some
      { id := ""
        createdAt := now
        items := input.selectedProducts
        orderNumber := "ORD-" ++ toString now ++ "-" ++ toString rand
        paymentMethod := input.paymentMethod
        receiptNumber := "RCPT-" ++ (toString now).takeRight 6
        shippingAddress := input.shippingAddress
        status := .pending
        total := calculateOrderTotal input.selectedProducts
        userId := "user_" ++ toString now
        isPaid := false }

/-- Spec-side predicate: the `orders` collection holds some `COMPLETED`
payment linked to the given order id. -/
def hasCompletedPaymentFor (payments : List Payment) (oid : String) : Bool :=
  payments.any fun p => p.orderId == oid && p.status == .completed

/-- Spec-side invariant of claim C1: every order's `isPaid` flag agrees with
the existence of a linked `COMPLETED` payment. -/
def paidInvariant (db : DB) : Bool :=
  db.orders.all fun o => o.isPaid == hasCompletedPaymentFor db.payments o.id

/-- Well-formedness of the store: Firestore document ids are unique within
each collection, and order ids are non-empty (generated ids always are). -/
def goodIds (db : DB) : Prop :=
  (db.payments.map Payment.id).Nodup ∧ (db.orders.map Order.id).Nodup ∧
    ∀ o ∈ db.orders, o.id ≠ ""

/-- Valid payment-status traces: `validTrace s ts` holds when each
successive status in `ts` is reachable from its predecessor starting at
`s` under `isValidStatusTransition`. -/
def validTrace : PaymentStatus → List PaymentStatus → Bool
  | _, [] => true
  | s, t :: ts => isValidStatusTransition s t && validTrace t ts

/-- Transition table exactly as enumerated by claim C4.  The claim's
`RETURNED` targets in the `SHIPPED` and `DELIVERED` rows do not name a
member of the source's `OrderStatus` enum and so cannot be requested; the
rows here list the claim's reachable members of the enum. -/
def claimedOrderTransitions : OrderStatus → List OrderStatus
  | .pending => [.processing, .cancelled]
  | .processing => [.shipped, .completed, .cancelled]
  | .shipped => [.delivered]
  | .delivered => [.completed]
  | .completed => [.refunded]
  | .cancelled => []
  | .refunded => []

section Examples

/-- Example payment: the single, already `COMPLETED` payment of order `o1`. -/
def cexPaymentCompleted : Payment :=
  { id := "p1", orderId := "o1", userId := "u1", amount := 25,
    referenceCode := "PAY-1", paymentMethod := "cash",
    status := .completed, createdAt := 1 }

/-- Example order: paid and already shipped. -/
def cexOrderShippedPaid : Order :=
  { id := "o1", createdAt := 1, items := [], orderNumber := "ORD-1",
    paymentMethod := "cash", receiptNumber := "RCPT-1",
    shippingAddress := "addr", status := .shipped, total := 25,
    userId := "u1", isPaid := true }

/-- Store for the C1 counterexample: one paid order whose only payment is
`COMPLETED`, about to be refunded. -/
def c1CexDB : DB := { payments := [cexPaymentCompleted], orders := [cexOrderShippedPaid] }

/-- Store for the C1 witness: an unpaid order with one pending payment. -/
def c1WitnessDB : DB :=
  { payments := [{ cexPaymentCompleted with status := .pending }],
    orders := [{ cexOrderShippedPaid with status := .pending, isPaid := false }] }

/-- Store for the C2 counterexample and witness: a shipped, paid order whose
only payment is still `PROCESSING`. -/
def c2DB : DB :=
  { payments := [{ cexPaymentCompleted with status := .processing }],
    orders := [cexOrderShippedPaid] }

/-- Store for the C3 counterexample and witness: a shipped, already-paid
order receiving a second, pending payment `p2`. -/
def c3DB : DB :=
  { payments := [{ cexPaymentCompleted with id := "p2", status := .pending }],
    orders := [cexOrderShippedPaid] }

/-- Store for the C4 witness: one unpaid pending order. -/
def c4DB : DB :=
  { payments := [],
    orders := [{ cexOrderShippedPaid with status := .pending, isPaid := false }] }

/-- Store for the C5 witness: one refunded payment. -/
def c5DB : DB :=
  { payments := [{ cexPaymentCompleted with status := .refunded }],
    orders := [] }

/-- Store for the C6 counterexample and witness: a pending payment that
already carries a `completedAt` stamp, plus a completed payment `pC`. -/
def c6DB : DB :=
  { payments := [{ cexPaymentCompleted with status := .pending, completedAt := some 5 },
                 { cexPaymentCompleted with id := "pC" }],
    orders := [] }

/-- Order-creation form input for the C8 witness: two products, as in the
spec's happy-path scenario. -/
def c8Input : OrderFormInput :=
  { selectedProducts :=
      [{ id := "prodA", imageUrl := "", name := "Cue", price := 10, quantity := 2 },
       { id := "prodB", imageUrl := "", name := "Chalk", price := 5, quantity := 1 }],
    shippingAddress := "addr", paymentMethod := "cash", notes := "" }

/-- Empty store for the C8 witness. -/
def c8DB : DB := { payments := [], orders := [] }

/-- The order payload `handleSubmitOrder 7 3 c8Input` produces. -/
def c8Order : Order :=
  { id := ""
    createdAt := 7
    items := c8Input.selectedProducts
    orderNumber := "ORD-" ++ toString 7 ++ "-" ++ toString 3
    paymentMethod := c8Input.paymentMethod
    receiptNumber := "RCPT-" ++ (toString 7).takeRight 6
    shippingAddress := c8Input.shippingAddress
    status := .pending
    total := calculateOrderTotal c8Input.selectedProducts
    userId := "user_" ++ toString 7
    isPaid := false }

end Examples

section Helpers

/-- Membership form of `hasCompletedPaymentFor`. -/
theorem hasCompletedPaymentFor_iff {l : List Payment} {oid : String} :
    hasCompletedPaymentFor l oid = true ↔
      ∃ p ∈ l, p.orderId = oid ∧ p.status = .completed := by
  simp [hasCompletedPaymentFor]

/-- Membership form of `paidInvariant`. -/
theorem paidInvariant_iff {db : DB} :
    paidInvariant db = true ↔
      ∀ o ∈ db.orders, o.isPaid = hasCompletedPaymentFor db.payments o.id := by
  simp [paidInvariant]

/-- A valid payment transition whose target is not `REFUNDED` cannot start
from `COMPLETED`: the only exit from `COMPLETED` is `REFUNDED`. -/
theorem valid_source_ne_completed :
    ∀ c t : PaymentStatus, isValidStatusTransition c t = true →
      t ≠ .refunded → c ≠ .completed := by decide

/-- The reconciliation write never touches the payments collection. -/
theorem updateOrderPaymentStatus_payments (db : DB) (now : ℕ) (oid : String)
    (b : Bool) : (updateOrderPaymentStatus db now oid b).1.payments = db.payments := by
  unfold updateOrderPaymentStatus
  by_cases h : oid = ""
  · simp [h]
  · have h' : (oid == "") = false := by simpa using h
    simp only [h', Bool.false_eq_true, if_false]
    cases findOrder db oid <;> rfl

/-- Mapping a function that preserves a search predicate commutes with
`find?`. -/
theorem find?_map_pred {α β : Type} (f : α → β) (p : β → Bool) (q : α → Bool)
    (h : ∀ a, p (f a) = q a) :
    ∀ l : List α, (l.map f).find? p = (l.find? q).map f := by
  intro l
  induction l with
  | nil => rfl
  | cons a l ih =>
    by_cases ha : q a = true
    · simp [List.find?_cons, h a, ha]
    · have ha' : q a = false := by simpa using ha
      simp [List.find?_cons, h a, ha', ih]

/-- Folding payment amounts is summing them. -/
theorem foldl_add_amount (l : List Payment) :
    ∀ init : ℚ, l.foldl (fun total payment => total + payment.amount) init =
      init + (l.map Payment.amount).sum := by
  induction l with
  | nil => intro init; simp
  | cons p l ih => intro init; simp [ih, add_assoc]

/-- Folding item subtotals is summing them. -/
theorem foldl_add_subtotal (l : List OrderItem) :
    ∀ init : ℚ, l.foldl (fun total item => total + item.price * item.quantity) init =
      init + (l.map fun i => i.price * i.quantity).sum := by
  induction l with
  | nil => intro init; simp
  | cons i l ih => intro init; simp [ih, add_assoc]

/-- Looking up the id just written by `putOrder` yields the written doc. -/
theorem findOrder_putOrder (db : DB) (o : Order) :
    findOrder (putOrder db o) o.id = some o := by
  unfold putOrder findOrder
  by_cases h : db.orders.any (fun x => x.id == o.id) = true
  · simp only [h, if_true]
    rw [find?_map_pred (fun x => if x.id == o.id then o else x)
        (fun y => y.id == o.id) (fun x => x.id == o.id)
        (by intro a; by_cases ha : a.id = o.id <;> simp [ha])]
    have hsome : (db.orders.find? (fun x => x.id == o.id)).isSome := by
      rw [List.find?_isSome]
      exact List.any_eq_true.mp h
    obtain ⟨z, hz⟩ := Option.isSome_iff_exists.mp hsome
    have hpz := List.find?_some hz
    simp only [beq_iff_eq] at hpz
    rw [hz]
    simp [hpz]
  · have h' : db.orders.any (fun x => x.id == o.id) = false := by simpa using h
    simp only [h', Bool.false_eq_true, if_false]
    rw [List.find?_append]
    have hnone : db.orders.find? (fun x => x.id == o.id) = none := by
      rw [List.find?_eq_none]
      intro x hx
      have := List.any_eq_false.mp h' x hx
      simpa using this
    simp [hnone, List.find?_cons]

/-- From `COMPLETED` the only valid step is into `REFUNDED`. -/
theorem valid_from_completed :
    ∀ t : PaymentStatus, isValidStatusTransition .completed t = true →
      t = .refunded := by decide

/-- No valid step leaves `REFUNDED`, so a valid trace from `REFUNDED` is
empty. -/
theorem validTrace_refunded {ts : List PaymentStatus}
    (h : validTrace .refunded ts = true) : ts = [] := by
  cases ts with
  | nil => rfl
  | cons t ts =>
    exfalso
    unfold validTrace at h
    rw [Bool.and_eq_true] at h
    have := h.1
    simp [isValidStatusTransition, validPaymentTransitions] at this

/-- A valid trace starting at `COMPLETED` never visits `COMPLETED` again. -/
theorem count_completed_from_completed {ts : List PaymentStatus}
    (h : validTrace .completed ts = true) : ts.count .completed = 0 := by
  cases ts with
  | nil => rfl
  | cons t ts =>
    unfold validTrace at h
    rw [Bool.and_eq_true] at h
    obtain ⟨h1, h2⟩ := h
    have ht := valid_from_completed t h1
    subst ht
    have := validTrace_refunded h2
    subst this
    decide

/-- Along any valid trace, `COMPLETED` occurs at most once. -/
theorem count_completed_le_one :
    ∀ (ts : List PaymentStatus) (s : PaymentStatus),
      validTrace s ts = true → ts.count .completed ≤ 1 := by
  intro ts
  induction ts with
  | nil => intro s _; simp
  | cons t ts ih =>
    intro s h
    unfold validTrace at h
    rw [Bool.and_eq_true] at h
    obtain ⟨h1, h2⟩ := h
    by_cases ht : t = PaymentStatus.completed
    · subst ht
      have := count_completed_from_completed h2
      simp [List.count_cons, this]
    · have ht' : (t == PaymentStatus.completed) = false := by simpa using ht
      have := ih t h2
      simp [List.count_cons, ht']
      omega

/-- Effect of the payment doc update on the completed-payment predicate:
after rewriting the payment with the given id, an order id has a completed
payment exactly when the rewritten payment provides one or some untouched
payment already did. -/
theorem hasCompleted_map_update {db : DB} {id : String} {now : ℕ}
    {status : PaymentStatus} {pay : Payment}
    (hndp : (db.payments.map Payment.id).Nodup)
    (hfind : findPayment db id = some pay) (oid : String) :
    (hasCompletedPaymentFor
        (db.payments.map fun p =>
          if p.id == id then applyPaymentStatusUpdate now status p else p) oid
      = true) ↔
      ((pay.orderId = oid ∧ status = .completed) ∨
        ∃ p ∈ db.payments, p.id ≠ id ∧ p.orderId = oid ∧
          p.status = .completed) := by
  have hmem : pay ∈ db.payments := List.mem_of_find?_eq_some hfind
  have hpid : pay.id = id := by simpa using List.find?_some hfind
  have hinj := List.inj_on_of_nodup_map hndp
  rw [hasCompletedPaymentFor_iff]
  constructor
  · rintro ⟨q, hq, hqo, hqs⟩
    rw [List.mem_map] at hq
    obtain ⟨p, hp, rfl⟩ := hq
    by_cases hid : p.id = id
    · have hpp : p = pay := hinj hp hmem (by rw [hid, hpid])
      simp only [hid, beq_self_eq_true, if_true, applyPaymentStatusUpdate] at hqo hqs
      exact Or.inl ⟨by rw [← hpp]; exact hqo, hqs⟩
    · have hid' : (p.id == id) = false := by simpa using hid
      simp only [hid', Bool.false_eq_true, if_false] at hqo hqs
      exact Or.inr ⟨p, hp, hid, hqo, hqs⟩
  · rintro (⟨ho, hs⟩ | ⟨p, hp, hid, ho, hs⟩)
    · refine ⟨applyPaymentStatusUpdate now status pay, ?_, ?_, ?_⟩
      · rw [List.mem_map]
        exact ⟨pay, hmem, by simp [hpid]⟩
      · simpa [applyPaymentStatusUpdate] using ho
      · simpa [applyPaymentStatusUpdate] using hs
    · refine ⟨p, ?_, ho, hs⟩
      rw [List.mem_map]
      exact ⟨p, hp, by simp [hid]⟩

/-- When the payment being updated is not `COMPLETED`, the completed-payment
predicate over the untouched store is carried by the other payments alone. -/
theorem hasCompleted_pre_others {db : DB} {id : String} {pay : Payment}
    (hndp : (db.payments.map Payment.id).Nodup)
    (hfind : findPayment db id = some pay) (hsrc : pay.status ≠ .completed)
    (oid : String) :
    (hasCompletedPaymentFor db.payments oid = true) ↔
      ∃ p ∈ db.payments, p.id ≠ id ∧ p.orderId = oid ∧
        p.status = .completed := by
  have hmem : pay ∈ db.payments := List.mem_of_find?_eq_some hfind
  have hpid : pay.id = id := by simpa using List.find?_some hfind
  have hinj := List.inj_on_of_nodup_map hndp
  rw [hasCompletedPaymentFor_iff]
  constructor
  · rintro ⟨p, hp, ho, hs⟩
    refine ⟨p, hp, ?_, ho, hs⟩
    intro hid
    have hpp : p = pay := hinj hp hmem (by rw [hid, hpid])
    exact hsrc (hpp ▸ hs)
  · rintro ⟨p, hp, _, ho, hs⟩
    exact ⟨p, hp, ho, hs⟩

/-- The `hasCompletedPayment` check computed by `updatePaymentStatus` over
the already-rewritten store detects exactly the completed payments of other
ids for the same order. -/
theorem hasCompletedPayment_code_iff (db : DB) (id : String) (now : ℕ)
    (status : PaymentStatus) (oid : String) (hoid : oid ≠ "") :
    (((getPaymentsByOrderId
        { db with payments := db.payments.map fun p =>
            if p.id == id then applyPaymentStatusUpdate now status p else p }
        oid).any fun p => p.id != id && p.status == .completed) = true) ↔
      ∃ p ∈ db.payments, p.id ≠ id ∧ p.orderId = oid ∧
        p.status = .completed := by
  have hoid' : (oid == "") = false := by simpa using hoid
  unfold getPaymentsByOrderId
  simp only [hoid', Bool.false_eq_true, if_false]
  rw [List.any_eq_true]
  constructor
  · rintro ⟨q, hq, hpred⟩
    rw [List.mem_filter] at hq
    obtain ⟨hqmem, hqoid⟩ := hq
    rw [List.mem_map] at hqmem
    obtain ⟨p, hp, rfl⟩ := hqmem
    by_cases hid : p.id = id
    · exfalso
      simp [hid, applyPaymentStatusUpdate] at hpred
    · have hid' : (p.id == id) = false := by simpa using hid
      simp only [hid', Bool.false_eq_true, if_false] at hqoid hpred
      rw [Bool.and_eq_true] at hpred
      refine ⟨p, hp, hid, by simpa using hqoid, by simpa using hpred.2⟩
  · rintro ⟨p, hp, hid, ho, hs⟩
    have hid' : (p.id == id) = false := by simpa using hid
    refine ⟨p, ?_, ?_⟩
    · rw [List.mem_filter]
      refine ⟨?_, by simpa using ho⟩
      rw [List.mem_map]
      exact ⟨p, hp, by simp [hid']⟩
    · simp [hid, hs]

/-- Updating only the payment doc (target not `COMPLETED`) preserves the
paid invariant. -/
theorem paidInvariant_payments_update {db : DB} {now : ℕ} {id : String}
    {status : PaymentStatus} {pay : Payment}
    (hndp : (db.payments.map Payment.id).Nodup)
    (hfind : findPayment db id = some pay)
    (hsrc : pay.status ≠ .completed) (hstat : status ≠ .completed)
    (hinv : paidInvariant db = true) :
    paidInvariant
      { db with payments := db.payments.map fun p =>
          if p.id == id then applyPaymentStatusUpdate now status p else p }
      = true := by
  rw [paidInvariant_iff] at hinv ⊢
  intro o ho
  have hpre := hinv o ho
  rw [Bool.eq_iff_iff]
  rw [hasCompleted_map_update hndp hfind o.id]
  constructor
  · intro hp
    exact Or.inr ((hasCompleted_pre_others hndp hfind hsrc o.id).mp
      (hpre ▸ hp))
  · rintro (⟨_, hc⟩ | hothers)
    · exact absurd hc hstat
    · rw [hpre]
      exact (hasCompleted_pre_others hndp hfind hsrc o.id).mpr hothers

/-- Updating only the payment doc when no order carries the payment's order
id preserves the paid invariant, whatever the target status. -/
theorem paidInvariant_payments_update_no_order {db : DB} {now : ℕ}
    {id : String} {status : PaymentStatus} {pay : Payment}
    (hndp : (db.payments.map Payment.id).Nodup)
    (hfind : findPayment db id = some pay)
    (hsrc : pay.status ≠ .completed)
    (hinv : paidInvariant db = true)
    (hnomatch : ∀ o ∈ db.orders, o.id ≠ pay.orderId) :
    paidInvariant
      { db with payments := db.payments.map fun p =>
          if p.id == id then applyPaymentStatusUpdate now status p else p }
      = true := by
  rw [paidInvariant_iff] at hinv ⊢
  intro o ho
  have hpre := hinv o ho
  rw [Bool.eq_iff_iff]
  rw [hasCompleted_map_update hndp hfind o.id]
  constructor
  · intro hp
    exact Or.inr ((hasCompleted_pre_others hndp hfind hsrc o.id).mp
      (hpre ▸ hp))
  · rintro (⟨h1, _⟩ | hothers)
    · exact absurd h1.symm (hnomatch o ho)
    · rw [hpre]
      exact (hasCompleted_pre_others hndp hfind hsrc o.id).mpr hothers

/-- Updating the payment doc and reconciling the parent order with the flag
`b` preserves the paid invariant, provided `b` matches the post-update
completed-payment predicate at the parent order id. -/
theorem paidInvariant_both_update {db : DB} {now : ℕ} {id : String}
    {status : PaymentStatus} {pay : Payment} (b : Bool)
    (hndp : (db.payments.map Payment.id).Nodup)
    (hfind : findPayment db id = some pay)
    (hsrc : pay.status ≠ .completed)
    (hinv : paidInvariant db = true)
    (hb : b = true ↔
      ((pay.orderId = pay.orderId ∧ status = .completed) ∨
        ∃ p ∈ db.payments, p.id ≠ id ∧ p.orderId = pay.orderId ∧
          p.status = .completed)) :
    paidInvariant
      { db with
        payments := db.payments.map fun p =>
          if p.id == id then applyPaymentStatusUpdate now status p else p
        orders := db.orders.map fun o =>
          if o.id == pay.orderId then applyOrderPaidUpdate now b o else o }
      = true := by
  rw [paidInvariant_iff] at hinv ⊢
  intro o' ho'
  rw [List.mem_map] at ho'
  obtain ⟨o, ho, rfl⟩ := ho'
  have hpre := hinv o ho
  by_cases hoid : o.id = pay.orderId
  · have hoid' : (o.id == pay.orderId) = true := by simpa using hoid
    simp only [hoid', if_true]
    rw [Bool.eq_iff_iff]
    have hidval : (applyOrderPaidUpdate now b o).id = o.id := rfl
    rw [show (applyOrderPaidUpdate now b o).isPaid = b from rfl]
    rw [hidval, hoid]
    rw [hasCompleted_map_update hndp hfind pay.orderId]
    exact hb
  · have hoid' : (o.id == pay.orderId) = false := by simpa using hoid
    simp only [hoid', Bool.false_eq_true, if_false]
    rw [Bool.eq_iff_iff]
    rw [hasCompleted_map_update hndp hfind o.id]
    constructor
    · intro hp
      exact Or.inr ((hasCompleted_pre_others hndp hfind hsrc o.id).mp
        (hpre ▸ hp))
    · rintro (⟨h1, _⟩ | hothers)
      · exact absurd h1.symm hoid
      · rw [hpre]
        exact (hasCompleted_pre_others hndp hfind hsrc o.id).mpr hothers

/-- The payments collection after `updatePaymentStatus` is either untouched
or the pointwise rewrite of the targeted payment. -/
theorem updatePaymentStatus_payments_cases (db : DB) (now : ℕ) (id : String)
    (status : PaymentStatus) :
    (updatePaymentStatus db now id status).1.payments = db.payments ∨
      (updatePaymentStatus db now id status).1.payments =
        db.payments.map fun p =>
          if p.id == id then applyPaymentStatusUpdate now status p else p := by
  unfold updatePaymentStatus
  by_cases h0 : id = ""
  · left; simp [h0]
  · have h0' : (id == "") = false := by simpa using h0
    simp only [h0', Bool.false_eq_true, if_false]
    cases hfind : findPayment db id with
    | none => left; rfl
    | some pay =>
      by_cases hval : isValidStatusTransition pay.status status = true
      · simp only [hval, Bool.not_true, Bool.false_eq_true, if_false]
        right
        split
        · rw [updateOrderPaymentStatus_payments]
        · split
          · split
            · rw [updateOrderPaymentStatus_payments]
            · rfl
          · rfl
      · have hval' : isValidStatusTransition pay.status status = false := by
          simpa using hval
        left
        simp [hval']

/-- Membership of a `putOrder` result whose id is the written id pins down
the written doc. -/
theorem putOrder_mem_id {db : DB} {u o : Order}
    (ho : o ∈ (putOrder db u).orders) (hid : o.id = u.id) : o = u := by
  unfold putOrder at ho
  by_cases h : db.orders.any (fun x => x.id == u.id) = true
  · simp only [h, if_true] at ho
    rw [List.mem_map] at ho
    obtain ⟨x, hx, rfl⟩ := ho
    by_cases hxid : x.id = u.id
    · simp [hxid]
    · have hx' : (x.id == u.id) = false := by simpa using hxid
      simp only [hx', Bool.false_eq_true, if_false] at hid ⊢
      exact absurd hid hxid
  · have h' : db.orders.any (fun x => x.id == u.id) = false := by simpa using h
    simp only [h', Bool.false_eq_true, if_false] at ho
    rw [List.mem_append] at ho
    rcases ho with hmem | hmem
    · exfalso
      have := List.any_eq_false.mp h' o hmem
      simp [hid] at this
    · simpa using hmem

end Helpers

section Claims

/-- Claim C4 (confirmed): `updateOrderStatus` succeeds exactly when the
requested status is reachable from the order's current status under the
order transition table and, for a payment-gated target (`PROCESSING`,
`SHIPPED`, `DELIVERED`, `COMPLETED`), the order is already paid; an
unreachable target fails with the invalid-transition error, and a reachable
but unpaid gated target fails with the distinct payment-required error.
The code's table coincides with the claim's table restricted to the members
of `OrderStatus` (the claim's `RETURNED` names no member of the enum, so it
can never be requested). -/
theorem C4_updateOrderStatus_characterization (db : DB) (now : ℕ)
    (id : String) (status : OrderStatus) (order : Order)
    (hfind : findOrder db id = some order) :
    ((∃ db', updateOrderStatus db now id status = .ok db') ↔
        (isValidOrderStatusTransition order.status status = true ∧
          (paymentGated status = true → order.isPaid = true))) ∧
      (isValidOrderStatusTransition order.status status = false →
        updateOrderStatus db now id status =
          .error (.invalidTransition order.status status)) ∧
      (isValidOrderStatusTransition order.status status = true →
        paymentGated status = true → order.isPaid = false →
        updateOrderStatus db now id status = .error (.paymentRequired status)) ∧
      (∀ c t : OrderStatus,
        isValidOrderStatusTransition c t =
          (claimedOrderTransitions c).contains t) ∧
      (∀ t : OrderStatus,
        paymentGated t =
          [OrderStatus.processing, OrderStatus.shipped, OrderStatus.delivered,
            OrderStatus.completed].contains t) := by
  refine ⟨⟨?_, ?_⟩, ?_, ?_, by decide, by decide⟩
  · rintro ⟨db', hdb'⟩
    unfold updateOrderStatus at hdb'
    rw [hfind] at hdb'
    by_cases hv : isValidOrderStatusTransition order.status status = true
    · refine ⟨hv, ?_⟩
      intro hg
      by_cases hp : order.isPaid = true
      · exact hp
      · exfalso
        have hp' : order.isPaid = false := by simpa using hp
        simp [hv, hg, hp'] at hdb'
    · exfalso
      have hv' : isValidOrderStatusTransition order.status status = false := by
        simpa using hv
      simp [hv'] at hdb'
  · rintro ⟨hv, himp⟩
    unfold updateOrderStatus
    rw [hfind]
    have hgate : (paymentGated status && !order.isPaid) = false := by
      cases hg : paymentGated status
      · simp
      · simp [himp hg]
    simp only [hv, Bool.not_true, Bool.false_eq_true, if_false, hgate]
    exact ⟨_, rfl⟩
  · intro hv
    unfold updateOrderStatus
    rw [hfind]
    simp [hv]
  · intro hv hg hp
    unfold updateOrderStatus
    rw [hfind]
    simp [hv, hg, hp]

/-- Witness for C4 at a concrete store: a pending unpaid order cannot be
advanced to `PROCESSING` (payment-required error). -/
theorem C4_witness :
    updateOrderStatus c4DB 0 "o1" OrderStatus.processing =
      .error (.paymentRequired OrderStatus.processing) := by
  have h := C4_updateOrderStatus_characterization c4DB 0 "o1"
    OrderStatus.processing
    ({ cexOrderShippedPaid with status := .pending, isPaid := false })
    (by decide)
  exact h.2.2.1 (by decide) (by decide) (by decide)

/-- Claim C5 (confirmed): an invalid payment status transition makes
`updatePaymentStatus` fail, returning `false` and leaving the store
unchanged; and from `REFUNDED` no target status is valid, so every call on
a refunded payment fails. -/
theorem C5_invalid_transition_rejected (db : DB) (now : ℕ) (id : String)
    (status : PaymentStatus) (pay : Payment)
    (hfind : findPayment db id = some pay)
    (hinvalid : isValidStatusTransition pay.status status = false) :
    updatePaymentStatus db now id status = (db, false) ∧
      ∀ t : PaymentStatus, isValidStatusTransition .refunded t = false := by
  refine ⟨?_, by decide⟩
  unfold updatePaymentStatus
  by_cases h0 : id = ""
  · simp [h0]
  · have h0' : (id == "") = false := by simpa using h0
    simp only [h0', Bool.false_eq_true, if_false]
    rw [hfind]
    simp [hinvalid]

/-- Witness for C5 at a concrete store: a refunded payment rejects a
transition to `PENDING`. -/
theorem C5_witness :
    updatePaymentStatus c5DB 100 "p1" PaymentStatus.pending =
      (c5DB, false) := by
  have h := C5_invalid_transition_rejected c5DB 100 "p1" PaymentStatus.pending
    ({ cexPaymentCompleted with status := .refunded }) (by decide) (by decide)
  exact h.1

/-- Claim C7 (confirmed): `getTotalRevenue` equals the sum of `amount` over
exactly the payments whose status is `COMPLETED`; being a function of the
current store, the same formula holds for the store produced by any
`updatePaymentStatus` call, so the value is correct after any payment
moves into or out of `COMPLETED`. -/
theorem C7_totalRevenue_sum (db : DB) :
    getTotalRevenue db =
        ((db.payments.filter fun p => p.status == .completed).map
          Payment.amount).sum ∧
      ∀ (now : ℕ) (id : String) (s : PaymentStatus),
        getTotalRevenue (updatePaymentStatus db now id s).1 =
          (((updatePaymentStatus db now id s).1.payments.filter
              fun p => p.status == .completed).map Payment.amount).sum := by
  have key : ∀ d : DB,
      getTotalRevenue d =
        ((d.payments.filter fun p => p.status == .completed).map
          Payment.amount).sum := by
    intro d
    unfold getTotalRevenue
    rw [foldl_add_amount]
    simp
  exact ⟨key db, fun _ _ _ => key _⟩

/-- Claim C8 (confirmed): `calculateOrderTotal` returns the sum of
`price * quantity` over the items, and every order stored by the
order-creation path (`handleSubmit` followed by `saveOrder`) has its
`total` field equal to that sum over its own items. -/
theorem C8_order_creation_total (db : DB) (now rand : ℕ)
    (input : OrderFormInput) (od : Order)
    (hsub : handleSubmitOrder now rand input = some od) :
    (∀ items : List OrderItem,
        calculateOrderTotal items =
          (items.map fun i => i.price * i.quantity).sum) ∧
      ∀ o ∈ (saveOrder db now od).1.orders, o.id = (saveOrder db now od).2 →
        o.total = (o.items.map fun i => i.price * i.quantity).sum := by
  have hcalc : ∀ items : List OrderItem,
      calculateOrderTotal items =
        (items.map fun i => i.price * i.quantity).sum := by
    intro items
    unfold calculateOrderTotal
    rw [foldl_add_subtotal]
    simp
  refine ⟨hcalc, ?_⟩
  have htotal : od.total = (od.items.map fun i => i.price * i.quantity).sum := by
    unfold handleSubmitOrder at hsub
    split at hsub
    · exact absurd hsub (by simp)
    · split at hsub
      · exact absurd hsub (by simp)
      · have hrec := Option.some.inj hsub
        rw [← hrec]
        exact hcalc _
  intro o ho hid
  have ho' := putOrder_mem_id ho hid
  rw [ho']
  exact htotal

/-- Witness for C8 at the spec's happy-path input (two items, 10×2 + 5×1):
the configured item list's computed total is the claimed sum. -/
theorem C8_witness :
    calculateOrderTotal c8Input.selectedProducts =
      (c8Input.selectedProducts.map fun i => i.price * i.quantity).sum :=
  (C8_order_creation_total c8DB 7 3 c8Input c8Order rfl).1
    c8Input.selectedProducts

/-- Counterexample to claim C9 as stated: the two tables also disagree on
`FAILED → CANCELLED` (the payment service permits it, the payment detail UI
does not), a pair different from `FAILED → PROCESSING`. -/
theorem C9_cex_failed_cancelled :
    isValidStatusTransition .failed .cancelled = true ∧
      (getValidStatusTransitions .failed).contains .cancelled = false ∧
      PaymentStatus.cancelled ≠ PaymentStatus.processing := by decide

/-- Claim C9 (corrected): the payment service's table and the payment
detail UI's table define the same relation for every current status except
`FAILED`, where they disagree on exactly two pairs: `FAILED → PROCESSING`
(UI only) and `FAILED → CANCELLED` (service only). -/
theorem C9_tables_disagreement :
    ∀ c t : PaymentStatus,
      (isValidStatusTransition c t ≠ (getValidStatusTransitions c).contains t)
        ↔ (c = .failed ∧ (t = .processing ∨ t = .cancelled)) := by decide

/-- Claim C10 (confirmed): along every valid payment-status trace the
status `COMPLETED` is visited at most once (the only exit from `COMPLETED`
is the terminal `REFUNDED`), and any `updatePaymentStatus` call whose
target is not `COMPLETED` leaves every stored payment's `completedAt`
unchanged, so the stamp written on entering `COMPLETED` is never
overwritten by a later valid transition. -/
theorem C10_completedAt_stable (ts : List PaymentStatus)
    (h : validTrace .pending ts = true) :
    ts.count .completed ≤ 1 ∧
      ∀ (db : DB) (now : ℕ) (id : String) (s : PaymentStatus),
        s ≠ .completed →
        ∀ p' ∈ (updatePaymentStatus db now id s).1.payments,
          ∃ p ∈ db.payments, p'.id = p.id ∧ p'.completedAt = p.completedAt := by
  refine ⟨count_completed_le_one ts .pending h, ?_⟩
  intro db now id s hs p' hp'
  rcases updatePaymentStatus_payments_cases db now id s with hcase | hcase
  · rw [hcase] at hp'
    exact ⟨p', hp', rfl, rfl⟩
  · rw [hcase] at hp'
    rw [List.mem_map] at hp'
    obtain ⟨p, hp, rfl⟩ := hp'
    by_cases hid : p.id = id
    · have hid' : (p.id == id) = true := by simpa using hid
      have hs' : (s == PaymentStatus.completed) = false := by simpa using hs
      refine ⟨p, hp, ?_, ?_⟩
      · simp [hid', applyPaymentStatusUpdate]
      · simp [hid', applyPaymentStatusUpdate, hs']
    · have hid' : (p.id == id) = false := by simpa using hid
      simp only [hid', Bool.false_eq_true, if_false]
      exact ⟨p, hp, rfl, rfl⟩

/-- Counterexample to claim C2 as stated: the parent order of a failing
payment is `SHIPPED` (so its status was not advanced past `PENDING` purely
due to payment and, per the claim, should be left untouched), yet the call
settles and the order's status is reset to `PENDING`. -/
theorem C2_cex_shipped_reset :
    c2DB.orders.map Order.status = [OrderStatus.shipped] ∧
      c2DB.orders.map Order.isPaid = [true] ∧
      (updatePaymentStatus c2DB 100 "p1" .failed).2 = true ∧
      (updatePaymentStatus c2DB 100 "p1" .failed).1.orders.map Order.status =
        [OrderStatus.pending] := by decide

/-- Claim C2 (corrected): when a payment transitions into `FAILED` or
`CANCELLED` and no other payment of the order is `COMPLETED`, reconciliation
writes `applyOrderPaidUpdate now false` on the parent order — `isPaid`
becomes `false` and the status is unconditionally reset to `PENDING`,
whatever the current status (even for a shipped order); the status field is
never left untouched on this path. -/
theorem C2_failed_reconciliation_resets (db : DB) (now : ℕ) (id : String)
    (status : PaymentStatus) (pay : Payment) (o : Order)
    (hfind : findPayment db id = some pay)
    (hst : status = .failed ∨ status = .cancelled)
    (hval : isValidStatusTransition pay.status status = true)
    (hid : id ≠ "") (hoid : pay.orderId ≠ "")
    (hnoother : ∀ p ∈ db.payments, p.id ≠ id → p.orderId = pay.orderId →
      p.status ≠ .completed)
    (hord : findOrder db pay.orderId = some o) :
    (updatePaymentStatus db now id status).2 = true ∧
      findOrder (updatePaymentStatus db now id status).1 pay.orderId =
        some (applyOrderPaidUpdate now false o) := by
  have h0' : (id == "") = false := by simpa using hid
  have hc' : (status == PaymentStatus.completed) = false := by
    rcases hst with rfl | rfl <;> decide
  have hfc : (status == PaymentStatus.failed ||
      status == PaymentStatus.cancelled) = true := by
    rcases hst with rfl | rfl <;> decide
  unfold updatePaymentStatus
  simp only [h0', Bool.false_eq_true, if_false]
  rw [hfind]
  simp only [hval, Bool.not_true, Bool.false_eq_true, if_false, hc', hfc,
    if_true]
  have hhc : ((getPaymentsByOrderId
      { db with payments := db.payments.map fun p =>
          if p.id == id then applyPaymentStatusUpdate now status p else p }
      pay.orderId).any fun p => p.id != id && p.status == .completed)
      = false := by
    cases hh : ((getPaymentsByOrderId
        { db with payments := db.payments.map fun p =>
            if p.id == id then applyPaymentStatusUpdate now status p else p }
        pay.orderId).any fun p => p.id != id && p.status == .completed) with
    | false => rfl
    | true =>
      exfalso
      rw [hasCompletedPayment_code_iff db id now status pay.orderId hoid] at hh
      obtain ⟨p, hp, hpid, hpo, hps⟩ := hh
      exact hnoother p hp hpid hpo hps
  simp only [hhc, Bool.not_false, if_true]
  unfold updateOrderPaymentStatus
  have hoid' : (pay.orderId == "") = false := by simpa using hoid
  simp only [hoid', Bool.false_eq_true, if_false]
  have hordeq : findOrder
      { db with payments := db.payments.map fun p =>
          if p.id == id then applyPaymentStatusUpdate now status p else p }
      pay.orderId = some o := hord
  rw [hordeq]
  refine ⟨by trivial, ?_⟩
  unfold findOrder
  rw [find?_map_pred
      (fun o' => if o'.id == pay.orderId then applyOrderPaidUpdate now false o'
        else o')
      (fun x => x.id == pay.orderId) (fun x => x.id == pay.orderId)
      (by intro a; by_cases ha : a.id = pay.orderId <;>
        simp [ha, applyOrderPaidUpdate])]
  have hfind' : db.orders.find? (fun x => x.id == pay.orderId) = some o := hord
  rw [hfind']
  have hoo : o.id = pay.orderId := by simpa using List.find?_some hfind'
  simp [hoo]

/-- Witness for C2 at the concrete store `c2DB`: the shipped paid order is
reset to unpaid pending when its only payment fails. -/
theorem C2_witness :
    (updatePaymentStatus c2DB 100 "p1" PaymentStatus.failed).2 = true ∧
      findOrder (updatePaymentStatus c2DB 100 "p1" PaymentStatus.failed).1
          ({ cexPaymentCompleted with status := .processing } : Payment).orderId =
        some (applyOrderPaidUpdate 100 false cexOrderShippedPaid) := by
  have h := C2_failed_reconciliation_resets c2DB 100 "p1" PaymentStatus.failed
    ({ cexPaymentCompleted with status := .processing }) cexOrderShippedPaid
    (by decide) (Or.inl rfl) (by decide) (by decide) (by decide) (by decide)
    (by decide)
  exact h

/-- Counterexample to claim C3 as stated: the parent order is already
`isPaid = true` and `SHIPPED` when a second payment completes; per the
claim, reconciliation should skip `recordPayment` (leaving the status
alone) and, when it does apply, should set the order's `paymentId`.  The
code instead resets the status to `PROCESSING` and never sets
`paymentId`. -/
theorem C3_cex_already_paid :
    c3DB.orders.map Order.isPaid = [true] ∧
      c3DB.orders.map Order.status = [OrderStatus.shipped] ∧
      (updatePaymentStatus c3DB 100 "p2" .completed).2 = true ∧
      (updatePaymentStatus c3DB 100 "p2" .completed).1.orders.map Order.status =
        [OrderStatus.processing] ∧
      (updatePaymentStatus c3DB 100 "p2" .completed).1.orders.map
        Order.paymentId = [none] := by decide

/-- Claim C3 (corrected): when a payment transitions into `COMPLETED`,
reconciliation writes `applyOrderPaidUpdate now true` on the parent order
unconditionally — `isPaid` becomes `true` and the status becomes
`PROCESSING` regardless of whether the order was already paid and
regardless of its current status (it is not restricted to `PENDING`
orders), and neither `paymentId` nor `paymentReferenceCode` is written
(they keep their previous values). -/
theorem C3_completed_reconciliation_unconditional (db : DB) (now : ℕ)
    (id : String) (pay : Payment) (o : Order)
    (hfind : findPayment db id = some pay)
    (hval : isValidStatusTransition pay.status .completed = true)
    (hid : id ≠ "") (hoid : pay.orderId ≠ "")
    (hord : findOrder db pay.orderId = some o) :
    (updatePaymentStatus db now id .completed).2 = true ∧
      findOrder (updatePaymentStatus db now id .completed).1 pay.orderId =
        some (applyOrderPaidUpdate now true o) := by
  have h0' : (id == "") = false := by simpa using hid
  unfold updatePaymentStatus
  simp only [h0', Bool.false_eq_true, if_false]
  rw [hfind]
  simp only [hval, Bool.not_true, Bool.false_eq_true, if_false,
    beq_self_eq_true, if_true]
  unfold updateOrderPaymentStatus
  have hoid' : (pay.orderId == "") = false := by simpa using hoid
  simp only [hoid', Bool.false_eq_true, if_false]
  have hordeq : findOrder
      { db with payments := db.payments.map fun p =>
          if p.id == id then applyPaymentStatusUpdate now .completed p else p }
      pay.orderId = some o := hord
  rw [hordeq]
  refine ⟨by trivial, ?_⟩
  unfold findOrder
  rw [find?_map_pred
      (fun o' => if o'.id == pay.orderId then applyOrderPaidUpdate now true o'
        else o')
      (fun x => x.id == pay.orderId) (fun x => x.id == pay.orderId)
      (by intro a; by_cases ha : a.id = pay.orderId <;>
        simp [ha, applyOrderPaidUpdate])]
  have hfind' : db.orders.find? (fun x => x.id == pay.orderId) = some o := hord
  rw [hfind']
  have hoo : o.id = pay.orderId := by simpa using List.find?_some hfind'
  simp [hoo]

/-- Witness for C3 at the concrete store `c3DB`: completing the second
payment rewrites the shipped paid order to paid `PROCESSING` without
touching `paymentId`. -/
theorem C3_witness :
    (updatePaymentStatus c3DB 100 "p2" PaymentStatus.completed).2 = true ∧
      findOrder (updatePaymentStatus c3DB 100 "p2" PaymentStatus.completed).1
          ({ cexPaymentCompleted with id := "p2", status := .pending } : Payment).orderId =
        some (applyOrderPaidUpdate 100 true cexOrderShippedPaid) := by
  have h := C3_completed_reconciliation_unconditional c3DB 100 "p2"
    ({ cexPaymentCompleted with id := "p2", status := .pending })
    cexOrderShippedPaid (by decide) (by decide) (by decide) (by decide)
    (by decide)
  exact h

/-- Counterexample to claim C6 as stated: the `completedAt` stamp is
written unconditionally on a successful transition into `COMPLETED` (the
"only if not already set" conditional lives in `savePayment`, not in
`updatePaymentStatus`): payment `p1` starts `PENDING` already carrying
`completedAt = 5`, and completing it at time 100 overwrites the stamp. -/
theorem C6_cex_stamp_overwritten :
    c6DB.payments.map Payment.completedAt = [some 5, none] ∧
      (updatePaymentStatus c6DB 100 "p1" .completed).2 = true ∧
      (updatePaymentStatus c6DB 100 "p1" .completed).1.payments.map
        Payment.completedAt = [some 100, none] := by decide

/-- Claim C6 (corrected): a second `setPaymentStatus(id, COMPLETED)` on an
already-completed payment fails with the invalid-transition outcome and
leaves the store untouched, so `recordPayment` side effects are never
double-applied and the existing `completedAt` survives; however, on a
successful transition into `COMPLETED` the code stamps `completedAt = now`
unconditionally, overwriting any value already present (the claim's "only
if it is not already set" holds in `savePayment` but not here). -/
theorem C6_completed_idempotent_and_stamp (db : DB) (now : ℕ) (id : String) :
    (∀ pay : Payment, findPayment db id = some pay →
        pay.status = .completed →
        updatePaymentStatus db now id .completed = (db, false)) ∧
      ∀ pay : Payment, findPayment db id = some pay → id ≠ "" →
        isValidStatusTransition pay.status .completed = true →
        ∀ p' ∈ (updatePaymentStatus db now id .completed).1.payments,
          p'.id = id → p'.completedAt = some now := by
  constructor
  · intro pay hfind hcomp
    unfold updatePaymentStatus
    by_cases h0 : id = ""
    · simp [h0]
    · have h0' : (id == "") = false := by simpa using h0
      simp only [h0', Bool.false_eq_true, if_false]
      rw [hfind]
      simp [hcomp, isValidStatusTransition, validPaymentTransitions]
  · intro pay hfind h0 hval
    have h0' : (id == "") = false := by simpa using h0
    unfold updatePaymentStatus
    simp only [h0', Bool.false_eq_true, if_false]
    rw [hfind]
    simp only [hval, Bool.not_true, Bool.false_eq_true, if_false,
      beq_self_eq_true, if_true]
    rw [updateOrderPaymentStatus_payments]
    intro p' hp' hp'id
    rw [List.mem_map] at hp'
    obtain ⟨p, hp, rfl⟩ := hp'
    by_cases hpid : p.id = id
    · have hpid' : (p.id == id) = true := by simpa using hpid
      simp [hpid', applyPaymentStatusUpdate]
    · have hpid' : (p.id == id) = false := by simpa using hpid
      simp only [hpid', Bool.false_eq_true, if_false] at hp'id
      exact absurd hp'id hpid

/-- Witness for C6 at the concrete store `c6DB`: re-completing the already
completed payment `pC` no-ops with failure. -/
theorem C6_witness :
    updatePaymentStatus c6DB 100 "pC" PaymentStatus.completed =
      (c6DB, false) := by
  have h := C6_completed_idempotent_and_stamp c6DB 100 "pC"
  exact h.1 ({ cexPaymentCompleted with id := "pC" }) (by decide) rfl

/-- Witness for C10 at a concrete trace visiting `COMPLETED` once. -/
theorem C10_witness :
    validTrace .pending [.processing, .completed, .refunded] = true ∧
      [PaymentStatus.processing, PaymentStatus.completed,
        PaymentStatus.refunded].count .completed ≤ 1 :=
  ⟨by decide, (C10_completedAt_stable _ (by decide)).1⟩

/-- Preservation of the paid invariant across the reconciliation call made
by `updatePaymentStatus`: for any store `db1` whose payments are the
rewritten payments of `db` and whose orders are untouched, the order-side
write with flag `b` keeps the invariant, provided `b` matches the
post-update completed-payment predicate at the parent order id (only needed
when that id is non-empty, since reconciliation bails out otherwise). -/
theorem paidInvariant_reconcile (db : DB) (now : ℕ) (id : String)
    (status : PaymentStatus) (pay : Payment) (b : Bool) (db1 : DB)
    (hdb1p : db1.payments = db.payments.map fun p =>
      if p.id == id then applyPaymentStatusUpdate now status p else p)
    (hdb1o : db1.orders = db.orders)
    (hndp : (db.payments.map Payment.id).Nodup)
    (hfind : findPayment db id = some pay)
    (hsrc : pay.status ≠ .completed)
    (hinv : paidInvariant db = true)
    (hne : ∀ o ∈ db.orders, o.id ≠ "")
    (hb : pay.orderId ≠ "" →
      (b = true ↔
        ((pay.orderId = pay.orderId ∧ status = .completed) ∨
          ∃ p ∈ db.payments, p.id ≠ id ∧ p.orderId = pay.orderId ∧
            p.status = .completed))) :
    paidInvariant (updateOrderPaymentStatus db1 now pay.orderId b).1 = true := by
  have hrec1 : db1 = { db with payments := db.payments.map fun p =>
      if p.id == id then applyPaymentStatusUpdate now status p else p } := by
    cases db1
    simp only at hdb1p hdb1o
    rw [hdb1p, hdb1o]
  unfold updateOrderPaymentStatus
  by_cases hoe : pay.orderId = ""
  · have hoe' : (pay.orderId == "") = true := by simpa using hoe
    simp only [hoe', if_true]
    rw [hrec1]
    exact paidInvariant_payments_update_no_order hndp hfind hsrc hinv
      (fun o ho => by rw [hoe]; exact hne o ho)
  · have hoe' : (pay.orderId == "") = false := by simpa using hoe
    simp only [hoe', Bool.false_eq_true, if_false]
    have heq : findOrder db1 pay.orderId = findOrder db pay.orderId := by
      unfold findOrder
      rw [hdb1o]
    rw [heq]
    cases hord : findOrder db pay.orderId with
    | none =>
      rw [hrec1]
      refine paidInvariant_payments_update_no_order hndp hfind hsrc hinv ?_
      intro o ho hoid
      have := List.find?_eq_none.mp hord o ho
      simp [hoid] at this
    | some o0 =>
      have hrec2 : ({ db1 with orders := db1.orders.map fun o =>
          if o.id == pay.orderId then applyOrderPaidUpdate now b o else o } : DB)
          = { db with
              payments := db.payments.map fun p =>
                if p.id == id then applyPaymentStatusUpdate now status p else p
              orders := db.orders.map fun o =>
                if o.id == pay.orderId then applyOrderPaidUpdate now b o
                else o } := by
        rw [hrec1]
      rw [hrec2]
      exact paidInvariant_both_update b hndp hfind hsrc hinv (hb hoe)

/-- Counterexample to claim C1 as stated: refunding the only completed
payment of a paid order settles successfully, yet leaves `isPaid = true`
with no completed payment linked to the order — `updatePaymentStatus`
reconciles the parent order only for targets `COMPLETED`, `FAILED` and
`CANCELLED`, never for `REFUNDED`. -/
theorem C1_cex_refund :
    paidInvariant c1CexDB = true ∧
      (updatePaymentStatus c1CexDB 100 "p1" .refunded).2 = true ∧
      paidInvariant (updatePaymentStatus c1CexDB 100 "p1" .refunded).1 =
        false := by decide

/-- Claim C1 (corrected): on a well-formed store (unique document ids,
non-empty order ids) in which every order's `isPaid` flag already agrees
with the existence of a linked `COMPLETED` payment, any `setPaymentStatus`
call whose target status is not `REFUNDED` preserves that agreement; a
transition into `REFUNDED` can break it, as the counterexample shows. -/
theorem C1_paid_invariant_preserved (db : DB) (now : ℕ) (id : String)
    (status : PaymentStatus) (hids : goodIds db)
    (hinv : paidInvariant db = true) (hs : status ≠ .refunded) :
    paidInvariant (updatePaymentStatus db now id status).1 = true := by
  obtain ⟨hndp, hndo, hne⟩ := hids
  unfold updatePaymentStatus
  by_cases h0 : id = ""
  · simpa [h0] using hinv
  have h0' : (id == "") = false := by simpa using h0
  simp only [h0', Bool.false_eq_true, if_false]
  cases hfind : findPayment db id with
  | none => simpa using hinv
  | some pay =>
    by_cases hval : isValidStatusTransition pay.status status = true
    · have hsrc : pay.status ≠ .completed :=
        valid_source_ne_completed pay.status status hval hs
      simp only [hval, Bool.not_true, Bool.false_eq_true, if_false]
      by_cases hc : status = PaymentStatus.completed
      · subst hc
        simp only [beq_self_eq_true, if_true]
        exact paidInvariant_reconcile db now id .completed pay true _ rfl rfl
          hndp hfind hsrc hinv hne
          (fun _ => iff_of_true rfl (Or.inl ⟨rfl, rfl⟩))
      · have hc' : (status == PaymentStatus.completed) = false := by
          simpa using hc
        simp only [hc', Bool.false_eq_true, if_false]
        by_cases hfc : (status == PaymentStatus.failed ||
            status == PaymentStatus.cancelled) = true
        · simp only [hfc, if_true]
          split
          · next hcond =>
            refine paidInvariant_reconcile db now id status pay false _ rfl rfl
              hndp hfind hsrc hinv hne ?_
            intro hoid
            constructor
            · intro hfalse
              exact absurd hfalse (by simp)
            · rintro (⟨_, hcomp⟩ | hothers)
              · exact absurd hcomp hc
              · exfalso
                have hq := (hasCompletedPayment_code_iff db id now status
                  pay.orderId hoid).mpr hothers
                rw [hq] at hcond
                simp at hcond
          · next hcond =>
            exact paidInvariant_payments_update hndp hfind hsrc hc hinv
        · have hfc' : (status == PaymentStatus.failed ||
              status == PaymentStatus.cancelled) = false := by simpa using hfc
          simp only [hfc', Bool.false_eq_true, if_false]
          exact paidInvariant_payments_update hndp hfind hsrc hc hinv
    · have hval' : isValidStatusTransition pay.status status = false := by
        simpa using hval
      simp only [hval', Bool.not_false, if_true]
      simpa using hinv

/-- Witness for C1 at a concrete well-formed store: completing the pending
payment of an unpaid order keeps the invariant. -/
theorem C1_witness :
    paidInvariant
      (updatePaymentStatus c1WitnessDB 100 "p1" PaymentStatus.completed).1 =
      true :=
  C1_paid_invariant_preserved c1WitnessDB 100 "p1" PaymentStatus.completed
    ⟨by decide, by decide, by decide⟩ (by decide) (by decide)

end Claims

end PoolPal
